import Mathlib

/-!
Verification of the MongoCollectibles rental system core.

This file gives a shallow embedding, in Lean 4, of the data model and the
operations of the collectible rental allocation and checkout core
(AllocationManager, CheckoutCoordinator, PricingEngine, RefundEngine,
ReservationSweeper and the in-memory Repository), translated from the Go
source, and proves or refutes the specification claims about them.

Modelling conventions:
* Go `time.Time` values are modelled as `Nat` timestamps; `t1.Before(t2)`
  is the strict order `t1 < t2`.  The 15-minute reservation timeout is the
  abstract constant `reservationTimeout`.
* Go maps used only for keyed lookup (`Warehouse.Distances`,
  `AllocationManager.warehouses`, the repository tables) are modelled as
  association lists with first-match lookup; key sets are duplicate-free in
  every state the program constructs.
* Monetary amounts are `float64` in Go but always integer-valued
  (base rates 1000/5000/10000 multiplied by 2 and by a day count);
  these operations are exact in `float64`, so amounts are modelled as `Int`.
* Fallible operations return `Option`/a `Bool` success flag; handler
  branches are represented by explicit result constructors.
-/

/-- A physical instance of a collectible stored in a warehouse
(`models.CollectibleUnit`). -/
structure CollectibleUnit where
  id : String
  collectibleId : String
  warehouseId : String
  isAvailable : Bool
  reservedAt : Option Nat
  reservationId : String
deriving Repr, DecidableEq

/-- A physical warehouse with its distances-to-stores map
(`models.WarehouseNode`: `Distances : map[string]int`). -/
structure WarehouseNode where
  id : String
  distances : List (String × Int)
deriving Repr, DecidableEq

/-- `warehouse.Distances[storeID]` lookup (Go map read, two-value form). -/
def lookupDistance (w : WarehouseNode) (storeId : String) : Option Int :=
  (w.distances.find? (fun p => p.1 == storeId)).map (fun p => p.2)

/-- The allocation manager state (`services.AllocationManager`): the unit
inventory and the warehouse index.  The Go warehouse index is a map built
from a duplicate-free node list, modelled as first-match lookup. -/
structure AllocationManager where
  inventory : List CollectibleUnit
  warehouses : List WarehouseNode
deriving Repr, DecidableEq

/-- `am.warehouses[unit.WarehouseID]` lookup. -/
def lookupWarehouse (ws : List WarehouseNode) (wid : String) : Option WarehouseNode :=
  ws.find? (fun w => w.id == wid)

/-- `reservationTimeout = 15 * time.Minute`, in abstract time units
(seconds). -/
def reservationTimeout : Nat := 900

/-- The sweep condition of `releaseExpiredReservationsUnsafe` /
`CleanupExpiredReservations`: the unit is held and
`unit.ReservedAt.Before(now - reservationTimeout)`. -/
def reservationExpired (now : Nat) (u : CollectibleUnit) : Bool :=
  !u.isAvailable &&
    (match u.reservedAt with
     | some t => decide (t + reservationTimeout < now)
     | none => false)

/-- The per-unit effect of the sweep loop body. -/
def sweepUnit (now : Nat) (u : CollectibleUnit) : CollectibleUnit :=
  if reservationExpired now u then
    { u with isAvailable := true, reservedAt := none, reservationId := "" }
  else u

/-- `releaseExpiredReservationsUnsafe`: release every held unit whose
reservation is past the timeout (also the loop body of
`CleanupExpiredReservations`, which is textually the same loop). -/
def sweepInventory (now : Nat) (inv : List CollectibleUnit) : List CollectibleUnit :=
  inv.map (sweepUnit now)

/-- The candidate filter of the `Allocate` (and `GetETA`) scan: the unit
must match the collectible, be available, belong to a known warehouse, and
that warehouse must have a distance entry for the store; the value is that
distance. -/
def candidateDistance (ws : List WarehouseNode) (collectibleId storeId : String)
    (u : CollectibleUnit) : Option Int :=
  if u.collectibleId = collectibleId ∧ u.isAvailable = true then
    match lookupWarehouse ws u.warehouseId with
    | some w => lookupDistance w storeId
    | none => none
  else none

/-- `math.MaxInt32`, the initial value of `minDistance` in the scans. -/
def maxInt32 : Int := 2147483647

/-- The selection loop shared by `Allocate` and `GetETA`: scan the units in
order, keeping the first unit whose candidate distance is strictly below
the running minimum (`if dist < minDistance`).  Returns the index, the
unit and its distance. -/
def selectBest (f : CollectibleUnit → Option Int) :
    List CollectibleUnit → Nat → Int → Option (Nat × CollectibleUnit × Int) →
      Option (Nat × CollectibleUnit × Int)
  | [], _, _, best => best
  | u :: rest, idx, minD, best =>
    match f u with
    | some d =>
      if d < minD then selectBest f rest (idx + 1) d (some (idx, u, d))
      else selectBest f rest (idx + 1) minD best
    | none => selectBest f rest (idx + 1) minD best

/-- In-place mutation of the unit at one index (the Go code mutates the
selected unit through its pointer). -/
def updateAt (f : CollectibleUnit → CollectibleUnit) :
    Nat → List CollectibleUnit → List CollectibleUnit
  | _, [] => []
  | 0, u :: rest => f u :: rest
  | n + 1, u :: rest => u :: updateAt f n rest

/-- The reservation write of `Allocate`: `IsAvailable = false`,
`ReservedAt = &now`, `ReservationID = rentalID`. -/
def reserveUnit (now : Nat) (rentalId : String) (u : CollectibleUnit) : CollectibleUnit :=
  { u with isAvailable := false, reservedAt := some now, reservationId := rentalId }

/-- `AllocationManager.Allocate(collectibleID, storeID, rentalID)` from the
reservation-aware manager: sweep expired reservations in-line, scan for the
nearest available matching unit, and reserve it.  `now` is the call time. -/
def AllocationManager.Allocate (am : AllocationManager)
    (collectibleId storeId rentalId : String) (now : Nat) :
    AllocationManager × Option (CollectibleUnit × Int) :=
  match selectBest (candidateDistance am.warehouses collectibleId storeId)
      (sweepInventory now am.inventory) 0 maxInt32 none with
  | none => ({ am with inventory := sweepInventory now am.inventory }, none)
  | some (i, u, d) =>
    ({ am with inventory :=
        updateAt (fun _ => reserveUnit now rentalId u) i (sweepInventory now am.inventory) },
      some (reserveUnit now rentalId u, d))

/-- The scan of `ReleaseUnit`: release the first unit matching both ids
that is not available (`IsAvailable = true`, `ReservedAt = nil`,
`ReservationID = ""`); `none` when no such unit exists. -/
def releaseFirst (collectibleId warehouseId : String) :
    List CollectibleUnit → Option (List CollectibleUnit)
  | [] => none
  | u :: rest =>
    if u.collectibleId = collectibleId ∧ u.warehouseId = warehouseId ∧ u.isAvailable = false then
      some ({ u with isAvailable := true, reservedAt := none, reservationId := "" } :: rest)
    else (releaseFirst collectibleId warehouseId rest).map (fun l => u :: l)

/-- `AllocationManager.ReleaseUnit(collectibleID, warehouseID)`: `true` is
the `nil`-error success return. -/
def AllocationManager.ReleaseUnit (am : AllocationManager)
    (collectibleId warehouseId : String) : AllocationManager × Bool :=
  match releaseFirst collectibleId warehouseId am.inventory with
  | some inv1 => ({ am with inventory := inv1 }, true)
  | none => (am, false)

/-- `AllocationManager.CleanupExpiredReservations` (the sweeper body). -/
def AllocationManager.CleanupExpiredReservations (am : AllocationManager) (now : Nat) :
    AllocationManager :=
  { am with inventory := sweepInventory now am.inventory }

/-- `AllocationManager.GetTotalStock(collectibleID)`: count of available
matching units. -/
def AllocationManager.GetTotalStock (am : AllocationManager) (collectibleId : String) : Nat :=
  (am.inventory.filter (fun u => u.collectibleId == collectibleId && u.isAvailable)).length

/-- `AllocationManager.GetETA(collectibleID, storeID)`: the same scan as
`Allocate` without the mutation; `none` is the error return. -/
def AllocationManager.GetETA (am : AllocationManager) (collectibleId storeId : String) :
    Option Int :=
  match selectBest (candidateDistance am.warehouses collectibleId storeId)
      am.inventory 0 maxInt32 none with
  | some (_, _, d) => some d
  | none => none

/-- The reservation write of the older draft's `Allocate`
(`services/allocation_manager.go`): only `IsAvailable` and `ReservedAt`
are set, no reservation id. -/
def reserveUnitLegacy (now : Nat) (u : CollectibleUnit) : CollectibleUnit :=
  { u with isAvailable := false, reservedAt := some now }

/-- `Allocate(collectibleID, storeID)` of the older draft
(`services/allocation_manager.go`): same scan, but no in-line sweep and no
reservation id. -/
def AllocationManager.AllocateLegacy (am : AllocationManager)
    (collectibleId storeId : String) (now : Nat) :
    AllocationManager × Option (CollectibleUnit × Int) :=
  match selectBest (candidateDistance am.warehouses collectibleId storeId)
      am.inventory 0 maxInt32 none with
  | none => (am, none)
  | some (i, u, d) =>
    ({ am with inventory := updateAt (fun _ => reserveUnitLegacy now u) i am.inventory },
      some (reserveUnitLegacy now u, d))

/-- `models.Size.GetDailyRate`: base daily rate by size string, `0` for an
unknown size. -/
def GetDailyRate (size : String) : Int :=
  if size = "S" then 1000 else if size = "M" then 5000 else if size = "L" then 10000 else 0

/-- `services.MinimumRentalDays = 7`. -/
def minimumRentalDays : Int := 7

/-- `PricingService.CalculateRentalFee(size, duration)`: returns
`(dailyRate, totalFee, isSpecialRate)`; the special rate doubles the base
rate for durations below the minimum.  The `float64` arithmetic of the Go
code is exact on these integer values. -/
def CalculateRentalFee (size : String) (duration : Int) : Int × Int × Bool :=
  let baseRate := GetDailyRate size
  let isSpecialRate := decide (duration < minimumRentalDays)
  let dailyRate := if isSpecialRate then baseRate * 2 else baseRate
  (dailyRate, dailyRate * duration, isSpecialRate)

example : CalculateRentalFee "L" 3 = (20000, 60000, true) := by decide
example : CalculateRentalFee "M" 10 = (5000, 50000, false) := by decide

/-- Refund lifecycle status (`models.RefundStatus`). -/
inductive RefundStatus where
  | pending
  | processed
  | failed
deriving Repr, DecidableEq

/-- A compensating refund record (`models.Refund`). -/
structure Refund where
  id : String
  orderId : String
  userId : String
  amount : Int
  reason : String
  status : RefundStatus
  createdAt : Nat
  updatedAt : Nat
deriving Repr, DecidableEq

/-- An order, restricted to the fields `CreateRefund` reads. -/
structure OrderRec where
  id : String
  userId : String
deriving Repr, DecidableEq

/-- `Repository.GetRefundByOrderID`: scan the refunds table for the order
id. -/
def getRefundByOrderID (refunds : List Refund) (orderId : String) : Option Refund :=
  refunds.find? (fun r => r.orderId == orderId)

/-- `Repository.CreateRefund` / `Repository.UpdateRefund`: the keyed map
write `r.refunds[refund.ID] = refund`. -/
def putRefund (refunds : List Refund) (r : Refund) : List Refund :=
  if refunds.any (fun r0 => r0.id == r.id) then
    refunds.map (fun r0 => if r0.id == r.id then r else r0)
  else refunds ++ [r]

/-- `RefundService.ProcessRefund`: the mock provider marks the refund
`Processed`, stamps `UpdatedAt` and saves it; it always succeeds. -/
def ProcessRefund (refunds : List Refund) (r : Refund) (now : Nat) : List Refund × Refund :=
  let r1 := { r with status := RefundStatus.processed, updatedAt := now }
  (putRefund refunds r1, r1)

/-- `RefundService.CreateRefund(orderID, amount, reason)`: return the
existing refund if one exists for the order, otherwise insert a fresh
`Pending` refund (`newId` is the generated UUID) and process it.  The
`ProcessRefund` error branch of the Go code is unreachable because the
mock provider always returns `nil`. -/
def CreateRefund (refunds : List Refund) (orders : List OrderRec) (orderId : String)
    (amount : Int) (reason : String) (newId : String) (now : Nat) :
    List Refund × Option Refund :=
  match getRefundByOrderID refunds orderId with
  | some existing => (refunds, some existing)
  | none =>
    match orders.find? (fun o => o.id == orderId) with
    | none => (refunds, none)
    | some order =>
      let refund : Refund :=
        { id := newId, orderId := orderId, userId := order.userId, amount := amount,
          reason := reason, status := RefundStatus.pending, createdAt := now, updatedAt := now }
      let refunds1 := putRefund refunds refund
      let p := ProcessRefund refunds1 refund now
      (p.1, some p.2)

/-! Helper lemmas about the refund repository. -/

lemma putRefund_fresh (refunds : List Refund) (r : Refund)
    (h : ∀ r0 ∈ refunds, r0.id ≠ r.id) : putRefund refunds r = refunds ++ [r] := by
  have hany : refunds.any (fun r0 => r0.id == r.id) = false := by
    simp only [List.any_eq_false]
    intro r0 hr0
    simp only [beq_iff_eq]
    exact h r0 hr0
  simp [putRefund, hany]

lemma putRefund_replace_last (refunds : List Refund) (r r2 : Refund)
    (h : ∀ r0 ∈ refunds, r0.id ≠ r.id) (hid : r2.id = r.id) :
    putRefund (refunds ++ [r]) r2 = refunds ++ [r2] := by
  have hany : (refunds ++ [r]).any (fun r0 => r0.id == r2.id) = true := by
    simp [hid]
  simp only [putRefund, hany, if_true, List.map_append]
  congr 1
  · conv_rhs => rw [← List.map_id refunds]
    apply List.map_congr_left
    intro r0 hr0
    rw [if_neg, id]
    simp only [beq_iff_eq, hid]
    exact h r0 hr0
  · simp [hid]

lemma getRefundByOrderID_append_single (refunds : List Refund) (r : Refund) (oid : String)
    (h : getRefundByOrderID refunds oid = none) :
    getRefundByOrderID (refunds ++ [r]) oid =
      if r.orderId = oid then some r else none := by
  unfold getRefundByOrderID at *
  rw [List.find?_append, h]
  by_cases hro : r.orderId = oid
  · simp [List.find?, hro]
  · have hb : (r.orderId == oid) = false := by simp [hro]
    simp [List.find?, hb, hro]

/-- **C8** — refund idempotency: once `CreateRefund` has produced a refund
for `orderId` (with a generated id fresh for the table), any later call
for the same `orderId` leaves the refunds table unchanged and returns the
stored refund, with the same `id` and the same `amount` as the first call
returned. -/
theorem createRefund_idempotent (refunds : List Refund) (orders : List OrderRec)
    (orderId : String) (a1 : Int) (rs1 : String) (id1 : String) (t1 : Nat)
    (a2 : Int) (rs2 : String) (id2 : String) (t2 : Nat) (rf1 : Refund)
    (hfresh : ∀ r ∈ refunds, r.id ≠ id1)
    (h1 : (CreateRefund refunds orders orderId a1 rs1 id1 t1).2 = some rf1) :
    (CreateRefund (CreateRefund refunds orders orderId a1 rs1 id1 t1).1 orders
        orderId a2 rs2 id2 t2).1 =
      (CreateRefund refunds orders orderId a1 rs1 id1 t1).1 ∧
    (CreateRefund (CreateRefund refunds orders orderId a1 rs1 id1 t1).1 orders
        orderId a2 rs2 id2 t2).2 = some rf1 := by
  rcases hex : getRefundByOrderID refunds orderId with _ | existing
  · rcases hord : orders.find? (fun o => o.id == orderId) with _ | order
    · simp only [CreateRefund, hex, hord] at h1
      exact absurd h1 (by simp)
    · simp only [CreateRefund, hex, hord, ProcessRefund] at h1 ⊢
      simp only [Option.some.injEq] at h1
      have hput1 :
          putRefund refunds
            { id := id1, orderId := orderId, userId := order.userId, amount := a1,
              reason := rs1, status := RefundStatus.pending, createdAt := t1,
              updatedAt := t1 } =
          refunds ++
            [{ id := id1, orderId := orderId, userId := order.userId, amount := a1,
               reason := rs1, status := RefundStatus.pending, createdAt := t1,
               updatedAt := t1 }] :=
        putRefund_fresh _ _ hfresh
      have hput2 :
          putRefund
            (refunds ++
              [{ id := id1, orderId := orderId, userId := order.userId, amount := a1,
                 reason := rs1, status := RefundStatus.pending, createdAt := t1,
                 updatedAt := t1 }]) rf1 =
          refunds ++ [rf1] := by
        apply putRefund_replace_last _ _ _ hfresh
        rw [← h1]
      have hlook : getRefundByOrderID (refunds ++ [rf1]) orderId = some rf1 := by
        rw [getRefundByOrderID_append_single refunds rf1 orderId hex, if_pos]
        rw [← h1]
      rw [hput1, h1, hput2]
      simp only [CreateRefund, hlook]
      exact ⟨trivial, trivial⟩
  · simp only [CreateRefund, hex] at h1 ⊢
    simp only [Option.some.injEq] at h1
    subst h1
    exact ⟨trivial, rfl⟩

/-- The concrete refund produced by the first witness call below. -/
def refundW : Refund :=
  { id := "rf-1", orderId := "o-1", userId := "u-1", amount := 1000, reason := "cancel",
    status := RefundStatus.processed, createdAt := 0, updatedAt := 0 }

/-- Witness for `createRefund_idempotent` at a concrete repository state. -/
theorem createRefund_idempotent_witness :
    (∀ r ∈ ([] : List Refund), r.id ≠ "rf-1") ∧
    ((CreateRefund ([] : List Refund) [⟨"o-1", "u-1"⟩] "o-1" 1000 "cancel" "rf-1" 0).2 =
      some refundW) ∧
    ((CreateRefund (CreateRefund ([] : List Refund) [⟨"o-1", "u-1"⟩] "o-1" 1000 "cancel"
          "rf-1" 0).1 [⟨"o-1", "u-1"⟩] "o-1" 500 "again" "rf-2" 5).1 =
        (CreateRefund ([] : List Refund) [⟨"o-1", "u-1"⟩] "o-1" 1000 "cancel" "rf-1" 0).1 ∧
      (CreateRefund (CreateRefund ([] : List Refund) [⟨"o-1", "u-1"⟩] "o-1" 1000 "cancel"
          "rf-1" 0).1 [⟨"o-1", "u-1"⟩] "o-1" 500 "again" "rf-2" 5).2 = some refundW) := by
  refine ⟨by simp, rfl, ?_⟩
  exact createRefund_idempotent ([] : List Refund) [⟨"o-1", "u-1"⟩] "o-1" 1000 "cancel"
    "rf-1" 0 500 "again" "rf-2" 5 refundW (by simp) rfl

/-- **C5** — pricing: for the three catalog sizes (base daily rates 1000,
5000, 10000) and any duration of at least one day, `CalculateRentalFee`
doubles the daily rate exactly when the duration is below 7 days, returns
`totalFee = dailyRate * duration`, and flags `isSpecialRate = (duration < 7)`. -/
theorem calculateRentalFee_spec (d : Int) (hd : 1 ≤ d) :
    CalculateRentalFee "S" d =
      ((if d < 7 then 2000 else 1000), (if d < 7 then 2000 else 1000) * d, decide (d < 7)) ∧
    CalculateRentalFee "M" d =
      ((if d < 7 then 10000 else 5000), (if d < 7 then 10000 else 5000) * d, decide (d < 7)) ∧
    CalculateRentalFee "L" d =
      ((if d < 7 then 20000 else 10000), (if d < 7 then 20000 else 10000) * d, decide (d < 7)) := by
  by_cases h : d < 7 <;>
    simp [CalculateRentalFee, GetDailyRate, minimumRentalDays, h]

/-- Witness for `calculateRentalFee_spec`, covering the spec's two literal
scenarios `(L, 3) = (20000, 60000, special)` and
`(M, 10) = (5000, 50000, normal)`. -/
theorem calculateRentalFee_spec_witness :
    ((1 : Int) ≤ 3 ∧ CalculateRentalFee "L" 3 = (20000, 60000, true)) ∧
    ((1 : Int) ≤ 10 ∧ CalculateRentalFee "M" 10 = (5000, 50000, false)) := by
  constructor
  · refine ⟨by norm_num, ?_⟩
    have h := (calculateRentalFee_spec 3 (by norm_num)).2.2
    simpa using h
  · refine ⟨by norm_num, ?_⟩
    have h := (calculateRentalFee_spec 10 (by norm_num)).2.1
    simpa using h

/-- The store ids of the default configuration
(`config.initializeStores`). -/
def configStoreIds : List String := ["store-a", "store-b", "store-c"]

/-- The startup validation loop of `main.go` ("Enforce Minimum 3 Stores
Rule PER WAREHOUSE"): the process aborts with `log.Fatalf` when some
warehouse node has fewer than 3 entries in its distances map; the result
is `true` when startup proceeds to serving. -/
def startupValidationPasses (nodes : List WarehouseNode) : Bool :=
  nodes.all (fun wh => decide (3 ≤ wh.distances.length))

/-- **C6 counterexample** — a warehouse whose distance map has three
entries but no entry for the known store `store-c` still passes the
startup validation, so startup does not abort when a warehouse lacks an
entry for a known store id. -/
theorem startupValidation_misses_store :
    startupValidationPasses
        [{ id := "w1", distances := [("store-a", 1), ("store-b", 2), ("elsewhere", 3)] }] =
      true ∧
    "store-c" ∈ configStoreIds ∧
    lookupDistance
        { id := "w1", distances := [("store-a", 1), ("store-b", 2), ("elsewhere", 3)] }
        "store-c" = none := by
  refine ⟨rfl, by simp [configStoreIds], rfl⟩

/-- **C6 (amended)** — the startup validation aborts exactly when some
warehouse has fewer than 3 distance entries; it never compares the entries
against the configured store ids. -/
theorem startupValidation_iff_min3 (nodes : List WarehouseNode) :
    startupValidationPasses nodes = true ↔ ∀ wh ∈ nodes, 3 ≤ wh.distances.length := by
  simp [startupValidationPasses]

/-! Properties of the shared selection scan. -/

lemma selectBest_isSome (f : CollectibleUnit → Option Int) :
    ∀ (l : List CollectibleUnit) (idx : Nat) (minD : Int)
      (b : Option (Nat × CollectibleUnit × Int)),
      (b.isSome = true ∨ ∃ u ∈ l, ∃ dv, f u = some dv ∧ dv < minD) →
      (selectBest f l idx minD b).isSome = true := by
  intro l
  induction l with
  | nil =>
    intro idx minD b h
    rcases h with h | ⟨u, hu, _⟩
    · simpa [selectBest] using h
    · cases hu
  | cons v rest ih =>
    intro idx minD b h
    cases hfv : f v with
    | none =>
      simp only [selectBest, hfv]
      apply ih
      rcases h with h | ⟨u, hu, dv, hdv, hlt⟩
      · exact Or.inl h
      · rcases List.mem_cons.mp hu with rfl | hu'
        · rw [hfv] at hdv; cases hdv
        · exact Or.inr ⟨u, hu', dv, hdv, hlt⟩
    | some dv =>
      simp only [selectBest, hfv]
      by_cases hlt : dv < minD
      · rw [if_pos hlt]
        exact ih _ _ _ (Or.inl rfl)
      · rw [if_neg hlt]
        apply ih
        rcases h with h | ⟨u, hu, dv0, hdv0, hlt0⟩
        · exact Or.inl h
        · rcases List.mem_cons.mp hu with rfl | hu'
          · rw [hfv] at hdv0
            injection hdv0 with he
            subst he
            exact absurd hlt0 hlt
          · exact Or.inr ⟨u, hu', dv0, hdv0, hlt0⟩

lemma selectBest_spec (f : CollectibleUnit → Option Int) :
    ∀ (l : List CollectibleUnit) (idx : Nat) (minD : Int)
      (b : Option (Nat × CollectibleUnit × Int)),
      (∀ p, b = some p → p.2.2 = minD) →
      ∀ i u d, selectBest f l idx minD b = some (i, u, d) →
        ((b = some (i, u, d) ∧
            ∀ j u0 d0, l.get? j = some u0 → f u0 = some d0 → d ≤ d0) ∨
         (∃ j, i = idx + j ∧ l.get? j = some u ∧ f u = some d ∧ d < minD ∧
            (∀ k u0 d0, k < j → l.get? k = some u0 → f u0 = some d0 → d < d0) ∧
            (∀ k u0 d0, l.get? k = some u0 → f u0 = some d0 → d ≤ d0))) := by
  intro l
  induction l with
  | nil =>
    intro idx minD b _ i u d hres
    simp only [selectBest] at hres
    left
    refine ⟨hres, ?_⟩
    intro j u0 d0 hj
    simp at hj
  | cons v rest ih =>
    intro idx minD b hb i u d hres
    cases hfv : f v with
    | none =>
      simp only [selectBest, hfv] at hres
      rcases ih (idx + 1) minD b hb i u d hres with ⟨hb', hall⟩ | ⟨j, hi, hjget, hfu, hdlt, hearly, hall⟩
      · left
        refine ⟨hb', ?_⟩
        intro j u0 d0 hj hf0
        cases j with
        | zero =>
          simp only [List.get?_cons_zero, Option.some.injEq] at hj
          subst hj
          rw [hfv] at hf0
          cases hf0
        | succ k =>
          exact hall k u0 d0 (by simpa using hj) hf0
      · right
        refine ⟨j + 1, by omega, by simpa using hjget, hfu, hdlt, ?_, ?_⟩
        · intro k u0 d0 hk hkget hf0
          cases k with
          | zero =>
            simp only [List.get?_cons_zero, Option.some.injEq] at hkget
            subst hkget
            rw [hfv] at hf0
            cases hf0
          | succ k2 =>
            exact hearly k2 u0 d0 (by omega) (by simpa using hkget) hf0
        · intro k u0 d0 hkget hf0
          cases k with
          | zero =>
            simp only [List.get?_cons_zero, Option.some.injEq] at hkget
            subst hkget
            rw [hfv] at hf0
            cases hf0
          | succ k2 =>
            exact hall k2 u0 d0 (by simpa using hkget) hf0
    | some dv =>
      simp only [selectBest, hfv] at hres
      by_cases hlt : dv < minD
      · rw [if_pos hlt] at hres
        have hb2 : ∀ p : Nat × CollectibleUnit × Int,
            some (idx, v, dv) = some p → p.2.2 = dv := by
          intro p hp
          injection hp with hp2
          subst hp2
          rfl
        rcases ih (idx + 1) dv (some (idx, v, dv)) hb2 i u d hres with
          ⟨hb', hall⟩ | ⟨j, hi, hjget, hfu, hdlt, hearly, hall⟩
        · injection hb' with hp
          obtain ⟨h1, h2, h3⟩ : i = idx ∧ u = v ∧ d = dv := by
            refine ⟨congrArg Prod.fst hp.symm, ?_, ?_⟩
            · exact (congrArg (fun q => q.2.1) hp).symm
            · exact (congrArg (fun q => q.2.2) hp).symm
          subst h1; subst h2; subst h3
          right
          refine ⟨0, by omega, by simp, hfv, hlt, by omega, ?_⟩
          intro k u0 d0 hkget hf0
          cases k with
          | zero =>
            simp only [List.get?_cons_zero, Option.some.injEq] at hkget
            subst hkget
            rw [hfv] at hf0
            injection hf0 with he
            omega
          | succ k2 =>
            exact hall k2 u0 d0 (by simpa using hkget) hf0
        · right
          refine ⟨j + 1, by omega, by simpa using hjget, hfu, by omega, ?_, ?_⟩
          · intro k u0 d0 hk hkget hf0
            cases k with
            | zero =>
              simp only [List.get?_cons_zero, Option.some.injEq] at hkget
              subst hkget
              rw [hfv] at hf0
              injection hf0 with he
              omega
            | succ k2 =>
              exact hearly k2 u0 d0 (by omega) (by simpa using hkget) hf0
          · intro k u0 d0 hkget hf0
            cases k with
            | zero =>
              simp only [List.get?_cons_zero, Option.some.injEq] at hkget
              subst hkget
              rw [hfv] at hf0
              injection hf0 with he
              omega
            | succ k2 =>
              exact hall k2 u0 d0 (by simpa using hkget) hf0
      · rw [if_neg hlt] at hres
        rcases ih (idx + 1) minD b hb i u d hres with
          ⟨hb', hall⟩ | ⟨j, hi, hjget, hfu, hdlt, hearly, hall⟩
        · left
          refine ⟨hb', ?_⟩
          intro k u0 d0 hkget hf0
          have hd : d = minD := hb ⟨i, u, d⟩ hb'
          cases k with
          | zero =>
            simp only [List.get?_cons_zero, Option.some.injEq] at hkget
            subst hkget
            rw [hfv] at hf0
            injection hf0 with he
            omega
          | succ k2 =>
            exact hall k2 u0 d0 (by simpa using hkget) hf0
        · right
          refine ⟨j + 1, by omega, by simpa using hjget, hfu, hdlt, ?_, ?_⟩
          · intro k u0 d0 hk hkget hf0
            cases k with
            | zero =>
              simp only [List.get?_cons_zero, Option.some.injEq] at hkget
              subst hkget
              rw [hfv] at hf0
              injection hf0 with he
              omega
            | succ k2 =>
              exact hearly k2 u0 d0 (by omega) (by simpa using hkget) hf0
          · intro k u0 d0 hkget hf0
            cases k with
            | zero =>
              simp only [List.get?_cons_zero, Option.some.injEq] at hkget
              subst hkget
              rw [hfv] at hf0
              injection hf0 with he
              omega
            | succ k2 =>
              exact hall k2 u0 d0 (by simpa using hkget) hf0

lemma selectBest_none_of_all_none (f : CollectibleUnit → Option Int) :
    ∀ (l : List CollectibleUnit) (idx : Nat) (minD : Int),
      (∀ u ∈ l, f u = none) → selectBest f l idx minD none = none := by
  intro l
  induction l with
  | nil => intro idx minD _; rfl
  | cons v rest ih =>
    intro idx minD h
    have hv : f v = none := h v (by simp)
    simp only [selectBest, hv]
    exact ih _ _ (fun u hu => h u (by simp [hu]))

/-- No reservation in the inventory is expired at time `now`. -/
def noExpired (now : Nat) (inv : List CollectibleUnit) : Prop :=
  ∀ u ∈ inv, reservationExpired now u = false

instance (now : Nat) (inv : List CollectibleUnit) : Decidable (noExpired now inv) := by
  unfold noExpired
  infer_instance

lemma sweepInventory_id (now : Nat) (inv : List CollectibleUnit)
    (h : noExpired now inv) : sweepInventory now inv = inv := by
  unfold sweepInventory
  conv_rhs => rw [← List.map_id inv]
  apply List.map_congr_left
  intro u hu
  simp [sweepUnit, h u hu]

/-- The inventory of the unit test `TestAllocationManager_Allocate`:
warehouse `1` at distance 10 and warehouse `2` at distance 5 from store
`S1`, one available unit of `C1` in each. -/
def amW : AllocationManager :=
  { inventory :=
      [{ id := "U1", collectibleId := "C1", warehouseId := "1",
         isAvailable := true, reservedAt := none, reservationId := "" },
       { id := "U2", collectibleId := "C1", warehouseId := "2",
         isAvailable := true, reservedAt := none, reservationId := "" }],
    warehouses := [{ id := "1", distances := [("S1", 10)] },
                   { id := "2", distances := [("S1", 5)] }] }

/-- **C7 (amended)** — when no unit of the requested collectible is an
allocation candidate for the requested store and no reservation in the
inventory is expired at call time (so the in-line sweep frees nothing),
`Allocate` returns the no-capacity error and leaves every unit unchanged. -/
theorem allocate_noCapacity_frame (am : AllocationManager) (cid sid rid : String) (now : Nat)
    (hne : noExpired now am.inventory)
    (hnc : ∀ u ∈ am.inventory, candidateDistance am.warehouses cid sid u = none) :
    am.Allocate cid sid rid now = (am, none) := by
  have hsw := sweepInventory_id now am.inventory hne
  have hnone : selectBest (candidateDistance am.warehouses cid sid)
      (sweepInventory now am.inventory) 0 maxInt32 none = none := by
    rw [hsw]
    exact selectBest_none_of_all_none _ _ _ _ hnc
  rw [hsw] at hnone
  simp only [AllocationManager.Allocate, hnone, hsw]

/-- A manager holding a single expired reservation of the requested
collectible (reserved at time 0, queried at time 1000 > timeout). -/
def amExp : AllocationManager :=
  { inventory :=
      [{ id := "u1", collectibleId := "c1", warehouseId := "w1",
         isAvailable := false, reservedAt := some 0, reservationId := "r0" }],
    warehouses := [{ id := "w1", distances := [("s1", 1)] }] }

/-- **C7 counterexample** — before the call no unit of `c1` is available,
yet `Allocate` first sweeps the expired reservation in-line and then
succeeds: it neither returns the no-capacity error nor leaves the units
unchanged. -/
theorem allocate_noCapacity_cex :
    (∀ u ∈ amExp.inventory, u.isAvailable = false) ∧
    (amExp.Allocate "c1" "s1" "r1" 1000).2 ≠ none ∧
    (amExp.Allocate "c1" "s1" "r1" 1000).1 ≠ amExp := by decide

/-- A manager with one available unit of `c1` whose warehouse does not
serve the requested store. -/
def amNone : AllocationManager :=
  { inventory :=
      [{ id := "u1", collectibleId := "c2", warehouseId := "w1",
         isAvailable := true, reservedAt := none, reservationId := "" }],
    warehouses := [{ id := "w1", distances := [("s1", 1)] }] }

/-- Witness for `allocate_noCapacity_frame` on a concrete state. -/
theorem allocate_noCapacity_frame_witness :
    noExpired 0 amNone.inventory ∧
    (∀ u ∈ amNone.inventory, candidateDistance amNone.warehouses "c1" "s1" u = none) ∧
    amNone.Allocate "c1" "s1" "r1" 0 = (amNone, none) :=
  ⟨by decide, by decide,
    allocate_noCapacity_frame amNone "c1" "s1" "r1" 0 (by decide) (by decide)⟩

/-- **C2 (amended)** — whenever a candidate with distance below the
`math.MaxInt32` sentinel exists and no reservation is expired at call
time, `Allocate` reserves a candidate unit whose distance is minimal over
all candidates; among candidates sharing the minimal distance it picks the
one occurring first in inventory order (every strictly earlier candidate
has a strictly larger distance) — not the lexicographically smallest unit
id. -/
theorem allocate_nearest (am : AllocationManager) (cid sid rid : String) (now : Nat)
    (hne : noExpired now am.inventory)
    (hcand : ∃ u ∈ am.inventory, ∃ dv,
        candidateDistance am.warehouses cid sid u = some dv ∧ dv < maxInt32) :
    ∃ i u d,
      am.inventory.get? i = some u ∧
      candidateDistance am.warehouses cid sid u = some d ∧
      (am.Allocate cid sid rid now).2 = some (reserveUnit now rid u, d) ∧
      (am.Allocate cid sid rid now).1.inventory =
        updateAt (fun _ => reserveUnit now rid u) i am.inventory ∧
      (∀ k u0 d0, am.inventory.get? k = some u0 →
        candidateDistance am.warehouses cid sid u0 = some d0 → d ≤ d0) ∧
      (∀ k u0 d0, k < i → am.inventory.get? k = some u0 →
        candidateDistance am.warehouses cid sid u0 = some d0 → d < d0) := by
  have hsw := sweepInventory_id now am.inventory hne
  have hsome : (selectBest (candidateDistance am.warehouses cid sid)
      (sweepInventory now am.inventory) 0 maxInt32 none).isSome = true := by
    rw [hsw]
    exact selectBest_isSome _ _ _ _ _ (Or.inr hcand)
  obtain ⟨⟨i, u, d⟩, hres0⟩ := Option.isSome_iff_exists.mp hsome
  have hres : selectBest (candidateDistance am.warehouses cid sid)
      am.inventory 0 maxInt32 none = some (i, u, d) := by
    rw [← hsw]; exact hres0
  rcases selectBest_spec _ am.inventory 0 maxInt32 none (by intro p hp; cases hp) i u d hres
    with ⟨hb, _⟩ | ⟨j, hi, hjget, hfu, _, hearly, hall⟩
  · cases hb
  · have hij : i = j := by omega
    subst hij
    refine ⟨i, u, d, hjget, hfu, ?_, ?_, hall, ?_⟩
    · simp only [AllocationManager.Allocate, hsw, hres]
    · simp only [AllocationManager.Allocate, hsw, hres]
    · intro k u0 d0 hk hkget hf0
      exact hearly k u0 d0 hk hkget hf0

/-- A manager with two available units of `c1` at the same distance 5 from
the store; the unit with the lexicographically larger id `"b"` is listed
first. -/
def amTie : AllocationManager :=
  { inventory :=
      [{ id := "b", collectibleId := "c1", warehouseId := "w1",
         isAvailable := true, reservedAt := none, reservationId := "" },
       { id := "a", collectibleId := "c1", warehouseId := "w2",
         isAvailable := true, reservedAt := none, reservationId := "" }],
    warehouses := [{ id := "w1", distances := [("s1", 5)] },
                   { id := "w2", distances := [("s1", 5)] }] }

/-- **C2 counterexample** — on a distance tie `Allocate` keeps the first
unit scanned (`"b"`), not the lexicographically smallest unit id (`"a"`),
although `"a"` is an equally distant candidate. -/
theorem allocate_tiebreak_cex :
    ((amTie.Allocate "c1" "s1" "r1" 0).2.map (fun p => p.1.id)) = some "b" ∧
    (∃ u ∈ amTie.inventory, u.id = "a" ∧
      candidateDistance amTie.warehouses "c1" "s1" u = some 5) ∧
    ("a" : String) < "b" := by
  refine ⟨by decide, by decide, String.lt_iff_toList_lt.mpr (by decide)⟩

/-- Witness for `allocate_nearest`: two warehouses at distances 10 and 5,
the distance-5 unit `U2` is chosen. -/
theorem allocate_nearest_witness :
    noExpired 0 amW.inventory ∧
    (∃ u ∈ amW.inventory, ∃ dv,
        candidateDistance amW.warehouses "C1" "S1" u = some dv ∧ dv < maxInt32) ∧
    (∃ i u d,
      amW.inventory.get? i = some u ∧
      candidateDistance amW.warehouses "C1" "S1" u = some d ∧
      (amW.Allocate "C1" "S1" "r1" 0).2 = some (reserveUnit 0 "r1" u, d) ∧
      (amW.Allocate "C1" "S1" "r1" 0).1.inventory =
        updateAt (fun _ => reserveUnit 0 "r1" u) i amW.inventory ∧
      (∀ k u0 d0, amW.inventory.get? k = some u0 →
        candidateDistance amW.warehouses "C1" "S1" u0 = some d0 → d ≤ d0) ∧
      (∀ k u0 d0, k < i → amW.inventory.get? k = some u0 →
        candidateDistance amW.warehouses "C1" "S1" u0 = some d0 → d < d0)) :=
  ⟨by decide, by decide, allocate_nearest amW "C1" "S1" "r1" 0 (by decide) (by decide)⟩

/-! Frame properties of the allocation manager. -/

/-- The immutable identity of a unit: `(ID, CollectibleID, WarehouseID)`. -/
def unitSig (u : CollectibleUnit) : String × String × String :=
  (u.id, u.collectibleId, u.warehouseId)

lemma sweepInventory_sig (now : Nat) (inv : List CollectibleUnit) :
    (sweepInventory now inv).map unitSig = inv.map unitSig := by
  unfold sweepInventory
  rw [List.map_map]
  apply List.map_congr_left
  intro u _
  by_cases h : reservationExpired now u = true <;>
    simp [Function.comp, sweepUnit, h, unitSig]

lemma updateAt_get? (f : CollectibleUnit → CollectibleUnit) :
    ∀ (n : Nat) (l : List CollectibleUnit) (k : Nat),
      (updateAt f n l).get? k = if k = n then (l.get? n).map f else l.get? k := by
  intro n l
  induction l generalizing n with
  | nil => intro k; simp [updateAt]
  | cons v rest ih =>
    intro k
    cases n with
    | zero =>
      cases k with
      | zero => simp [updateAt]
      | succ k2 => simp [updateAt]
    | succ n2 =>
      cases k with
      | zero => simp [updateAt]
      | succ k2 => simpa [updateAt] using ih n2 k2

lemma updateAt_sig (f : CollectibleUnit → CollectibleUnit)
    (hf : ∀ u, unitSig (f u) = unitSig u) :
    ∀ (n : Nat) (l : List CollectibleUnit),
      (updateAt f n l).map unitSig = l.map unitSig := by
  intro n l
  induction l generalizing n with
  | nil => simp [updateAt]
  | cons v rest ih =>
    cases n with
    | zero => simp [updateAt, hf v]
    | succ n2 => simpa [updateAt] using ih n2

lemma updateAt_sig_of_get (c : CollectibleUnit) :
    ∀ (n : Nat) (l : List CollectibleUnit) (u : CollectibleUnit),
      l.get? n = some u → unitSig c = unitSig u →
      (updateAt (fun _ => c) n l).map unitSig = l.map unitSig := by
  intro n l
  induction l generalizing n with
  | nil => intro u hg; cases hg
  | cons v rest ih =>
    intro u hg hsig
    cases n with
    | zero =>
      simp only [List.get?_cons_zero, Option.some.injEq] at hg
      subst hg
      simp [updateAt, hsig]
    | succ n2 =>
      simp only [List.get?_cons_succ] at hg
      simpa [updateAt] using ih n2 u hg hsig

lemma releaseFirst_sig (cid wid : String) :
    ∀ (inv inv' : List CollectibleUnit), releaseFirst cid wid inv = some inv' →
      inv'.map unitSig = inv.map unitSig := by
  intro inv
  induction inv with
  | nil => intro inv' h; cases h
  | cons v rest ih =>
    intro inv' h
    by_cases hc : v.collectibleId = cid ∧ v.warehouseId = wid ∧ v.isAvailable = false
    · rw [releaseFirst, if_pos hc] at h
      injection h with h
      subst h
      simp [unitSig]
    · rw [releaseFirst, if_neg hc] at h
      cases hrec : releaseFirst cid wid rest with
      | none => rw [hrec] at h; cases h
      | some rest' =>
        rw [hrec] at h
        injection h with h
        subst h
        simp [ih rest' hrec]

/-- **C9** — frame invariant of the allocation manager: `Allocate`,
`ReleaseUnit` and `CleanupExpiredReservations` preserve the list of units
position by position — no unit is added or removed, and no unit's `ID`,
`CollectibleID` or `WarehouseID` ever changes (so only `IsAvailable`,
`ReservedAt` and `ReservationID` are mutated) — and the warehouse table is
never touched.  `GetTotalStock` and `GetETA` are embedded as read-only
functions of the state, mutating nothing by construction. -/
theorem allocationManager_frame (am : AllocationManager)
    (cid sid rid wid : String) (now : Nat) :
    (am.Allocate cid sid rid now).1.inventory.map unitSig = am.inventory.map unitSig ∧
    (am.ReleaseUnit cid wid).1.inventory.map unitSig = am.inventory.map unitSig ∧
    (am.CleanupExpiredReservations now).inventory.map unitSig = am.inventory.map unitSig ∧
    (am.Allocate cid sid rid now).1.warehouses = am.warehouses ∧
    (am.ReleaseUnit cid wid).1.warehouses = am.warehouses ∧
    (am.CleanupExpiredReservations now).warehouses = am.warehouses := by
  refine ⟨?_, ?_, ?_, ?_, ?_, ?_⟩
  · cases hres : selectBest (candidateDistance am.warehouses cid sid)
        (sweepInventory now am.inventory) 0 maxInt32 none with
    | none =>
      simp only [AllocationManager.Allocate, hres]
      exact sweepInventory_sig now am.inventory
    | some p =>
      obtain ⟨i, u, d⟩ := p
      simp only [AllocationManager.Allocate, hres]
      rcases selectBest_spec _ (sweepInventory now am.inventory) 0 maxInt32 none
          (by intro p hp; cases hp) i u d hres with ⟨hb, _⟩ | ⟨j, hi, hjget, _, _, _, _⟩
      · cases hb
      · have hij : i = j := by omega
        subst hij
        rw [updateAt_sig_of_get (reserveUnit now rid u) i
          (sweepInventory now am.inventory) u hjget rfl]
        exact sweepInventory_sig now am.inventory
  · cases hrel : releaseFirst cid wid am.inventory with
    | none => simp only [AllocationManager.ReleaseUnit, hrel]
    | some inv' =>
      simp only [AllocationManager.ReleaseUnit, hrel]
      exact releaseFirst_sig cid wid am.inventory inv' hrel
  · exact sweepInventory_sig now am.inventory
  · cases hres : selectBest (candidateDistance am.warehouses cid sid)
        (sweepInventory now am.inventory) 0 maxInt32 none with
    | none => simp only [AllocationManager.Allocate, hres]
    | some p =>
      obtain ⟨i, u, d⟩ := p
      simp only [AllocationManager.Allocate, hres]
  · cases hrel : releaseFirst cid wid am.inventory with
    | none => simp only [AllocationManager.ReleaseUnit, hrel]
    | some inv' => simp only [AllocationManager.ReleaseUnit, hrel]
  · rfl

/-! Characterization of `ReleaseUnit`. -/

lemma releaseFirst_none_of_no_match (cid wid : String) :
    ∀ inv : List CollectibleUnit,
      (∀ u ∈ inv, ¬(u.collectibleId = cid ∧ u.warehouseId = wid ∧ u.isAvailable = false)) →
      releaseFirst cid wid inv = none := by
  intro inv
  induction inv with
  | nil => intro _; rfl
  | cons v rest ih =>
    intro h
    rw [releaseFirst, if_neg (h v (by simp))]
    rw [ih (fun u hu => h u (by simp [hu]))]
    rfl

lemma releaseFirst_none_no_match (cid wid : String) :
    ∀ inv : List CollectibleUnit, releaseFirst cid wid inv = none →
      ∀ u ∈ inv, ¬(u.collectibleId = cid ∧ u.warehouseId = wid ∧ u.isAvailable = false) := by
  intro inv
  induction inv with
  | nil => intro _ u hu; cases hu
  | cons v rest ih =>
    intro h u hu
    by_cases hc : v.collectibleId = cid ∧ v.warehouseId = wid ∧ v.isAvailable = false
    · rw [releaseFirst, if_pos hc] at h
      cases h
    · rw [releaseFirst, if_neg hc] at h
      have hrec : releaseFirst cid wid rest = none := by
        cases hr : releaseFirst cid wid rest with
        | none => rfl
        | some rest' => rw [hr] at h; cases h
      rcases List.mem_cons.mp hu with rfl | hu'
      · exact hc
      · exact ih hrec u hu'

lemma releaseFirst_some_spec (cid wid : String) :
    ∀ inv inv' : List CollectibleUnit, releaseFirst cid wid inv = some inv' →
      ∃ i u, inv.get? i = some u ∧
        (u.collectibleId = cid ∧ u.warehouseId = wid ∧ u.isAvailable = false) ∧
        (∀ k u0, k < i → inv.get? k = some u0 →
          ¬(u0.collectibleId = cid ∧ u0.warehouseId = wid ∧ u0.isAvailable = false)) ∧
        inv' = updateAt
          (fun v => { v with isAvailable := true, reservedAt := none, reservationId := "" })
          i inv := by
  intro inv
  induction inv with
  | nil => intro inv' h; cases h
  | cons v rest ih =>
    intro inv' h
    by_cases hc : v.collectibleId = cid ∧ v.warehouseId = wid ∧ v.isAvailable = false
    · rw [releaseFirst, if_pos hc] at h
      injection h with h
      subst h
      exact ⟨0, v, by simp, hc, by omega, by simp [updateAt]⟩
    · rw [releaseFirst, if_neg hc] at h
      cases hrec : releaseFirst cid wid rest with
      | none => rw [hrec] at h; cases h
      | some rest' =>
        rw [hrec] at h
        injection h with h
        subst h
        obtain ⟨i, u, hg, hu, hearly, hrest⟩ := ih rest' hrec
        refine ⟨i + 1, u, by simpa using hg, hu, ?_, by simp [updateAt, hrest]⟩
        intro k u0 hk hkg
        cases k with
        | zero =>
          simp only [List.get?_cons_zero, Option.some.injEq] at hkg
          subst hkg
          exact hc
        | succ k2 =>
          exact hearly k2 u0 (by omega) (by simpa using hkg)

/-- **C10** — `ReleaseUnit(collectibleID, warehouseID)`: when some unit
matches both ids and is not available, the call succeeds and exactly one
unit — the first such match in inventory order — is set `Available` with
`ReservedAt` and `ReservationID` cleared, every other unit being left
untouched; when no unit matches, the call returns the error and the state
is completely unchanged. -/
theorem releaseUnit_spec (am : AllocationManager) (cid wid : String) :
    ((∀ u ∈ am.inventory,
        ¬(u.collectibleId = cid ∧ u.warehouseId = wid ∧ u.isAvailable = false)) →
      am.ReleaseUnit cid wid = (am, false)) ∧
    ((∃ u ∈ am.inventory,
        u.collectibleId = cid ∧ u.warehouseId = wid ∧ u.isAvailable = false) →
      (am.ReleaseUnit cid wid).2 = true ∧
      ∃ i u, am.inventory.get? i = some u ∧
        (u.collectibleId = cid ∧ u.warehouseId = wid ∧ u.isAvailable = false) ∧
        (∀ k u0, k < i → am.inventory.get? k = some u0 →
          ¬(u0.collectibleId = cid ∧ u0.warehouseId = wid ∧ u0.isAvailable = false)) ∧
        (am.ReleaseUnit cid wid).1.inventory.get? i =
          some { u with isAvailable := true, reservedAt := none, reservationId := "" } ∧
        (∀ k, k ≠ i → (am.ReleaseUnit cid wid).1.inventory.get? k = am.inventory.get? k)) := by
  constructor
  · intro h
    have hn := releaseFirst_none_of_no_match cid wid am.inventory h
    simp only [AllocationManager.ReleaseUnit, hn]
  · intro h
    cases hrel : releaseFirst cid wid am.inventory with
    | none =>
      exfalso
      obtain ⟨u, hu, hc⟩ := h
      exact releaseFirst_none_no_match cid wid am.inventory hrel u hu hc
    | some inv' =>
      obtain ⟨i, u, hg, hu, hearly, hinv⟩ := releaseFirst_some_spec cid wid am.inventory inv' hrel
      refine ⟨by simp only [AllocationManager.ReleaseUnit, hrel], i, u, hg, hu, hearly, ?_, ?_⟩
      · simp only [AllocationManager.ReleaseUnit, hrel, hinv]
        rw [updateAt_get?, if_pos rfl, hg]
        rfl
      · intro k hk
        simp only [AllocationManager.ReleaseUnit, hrel, hinv]
        rw [updateAt_get?, if_neg hk]

/-- A manager with one reserved unit of `c1` in warehouse `w1` and one
available unit beside it. -/
def amRel : AllocationManager :=
  { inventory :=
      [{ id := "u0", collectibleId := "c1", warehouseId := "w1",
         isAvailable := false, reservedAt := some 0, reservationId := "r0" },
       { id := "u1", collectibleId := "c1", warehouseId := "w1",
         isAvailable := true, reservedAt := none, reservationId := "" }],
    warehouses := [{ id := "w1", distances := [("s1", 1)] }] }

/-- Witness for `releaseUnit_spec` on a concrete state: both the failure
branch (no reserved unit of `c2`) and the success branch (reserved unit of
`c1`). -/
theorem releaseUnit_spec_witness :
    ((∀ u ∈ amRel.inventory,
        ¬(u.collectibleId = "c2" ∧ u.warehouseId = "w1" ∧ u.isAvailable = false)) ∧
      amRel.ReleaseUnit "c2" "w1" = (amRel, false)) ∧
    ((∃ u ∈ amRel.inventory,
        u.collectibleId = "c1" ∧ u.warehouseId = "w1" ∧ u.isAvailable = false) ∧
      ((amRel.ReleaseUnit "c1" "w1").2 = true ∧
        ∃ i u, amRel.inventory.get? i = some u ∧
          (u.collectibleId = "c1" ∧ u.warehouseId = "w1" ∧ u.isAvailable = false) ∧
          (∀ k u0, k < i → amRel.inventory.get? k = some u0 →
            ¬(u0.collectibleId = "c1" ∧ u0.warehouseId = "w1" ∧ u0.isAvailable = false)) ∧
          (amRel.ReleaseUnit "c1" "w1").1.inventory.get? i =
            some { u with isAvailable := true, reservedAt := none, reservationId := "" } ∧
          (∀ k, k ≠ i →
            (amRel.ReleaseUnit "c1" "w1").1.inventory.get? k = amRel.inventory.get? k))) :=
  ⟨⟨by decide, (releaseUnit_spec amRel "c2" "w1").1 (by decide)⟩,
    ⟨by decide, (releaseUnit_spec amRel "c1" "w1").2 (by decide)⟩⟩

/-- Payment status of a rental (`models.PaymentStatus`). -/
inductive PaymentStatus where
  | pending
  | completed
  | failed
deriving Repr, DecidableEq

/-- A rental record (`models.Rental`), restricted to the fields the
checkout and payment handlers read and write; `customerEmail` stands for
`Customer.Email`. -/
structure Rental where
  id : String
  collectibleId : String
  storeId : String
  warehouseId : String
  customerEmail : String
  duration : Int
  dailyRate : Int
  totalFee : Int
  paymentStatus : PaymentStatus
  paymentId : String
  paymentUrl : String
  eta : Int
deriving Repr, DecidableEq

/-- `PaymentsHandler.PaymentSuccess`: look up the rental by id
(`GetRentalByID`), mark its payment `Completed` and save it
(`UpdateRental`, a keyed map write).  `false` is the 404 branch.  The
handler never informs the allocation manager, and no `Committed` state
exists on units. -/
def PaymentSuccess (rentals : List Rental) (rentalId : String) : List Rental × Bool :=
  match rentals.find? (fun r => r.id == rentalId) with
  | none => (rentals, false)
  | some _ =>
    (rentals.map (fun r =>
        if r.id == rentalId then { r with paymentStatus := PaymentStatus.completed } else r),
      true)

/-- A rental table with one pending rental `r1` holding unit `u1`. -/
def rentalsPaid : List Rental :=
  [{ id := "r1", collectibleId := "c1", storeId := "s1", warehouseId := "w1",
     customerEmail := "e", duration := 10, dailyRate := 5000, totalFee := 50000,
     paymentStatus := PaymentStatus.pending, paymentId := "pay1",
     paymentUrl := "http://pay/1", eta := 1 }]

/-- The allocation state after `r1`'s allocation: its unit reserved at
time 0. -/
def amPaid : AllocationManager :=
  { inventory :=
      [{ id := "u1", collectibleId := "c1", warehouseId := "w1",
         isAvailable := false, reservedAt := some 0, reservationId := "r1" }],
    warehouses := [{ id := "w1", distances := [("s1", 1)] }] }

/-- **C3 (failing input)** — the payment for rental `r1` completes
(`PaymentSuccess` marks it `Completed`), yet the sweeper run at time 1000
(past the 15-minute timeout of the reservation taken at time 0) returns
`r1`'s unit to `Available`: the code has no `Committed` unit state, and
payment success never shields a reservation from
`CleanupExpiredReservations`. -/
theorem sweeper_releases_paid_unit :
    ((PaymentSuccess rentalsPaid "r1").1.find? (fun r => r.id == "r1")).map
        (fun r => r.paymentStatus) = some PaymentStatus.completed ∧
    (amPaid.inventory.get? 0).map (fun u => (u.isAvailable, u.reservationId)) =
      some (false, "r1") ∧
    ((amPaid.CleanupExpiredReservations 1000).inventory.get? 0).map
        (fun u => u.isAvailable) = some true := by decide

/-- A catalog item (`models.Collectible`), restricted to the fields the
checkout handlers read. -/
structure Collectible where
  id : String
  name : String
  size : String
deriving Repr, DecidableEq

/-- Result of the legacy single-item `Checkout` handler. -/
inductive CheckoutSingleResult where
  | notFound
  | noCapacity
  | reusedPending (rentalId : String) (totalFee : Int) (eta : Int) (paymentUrl : String)
  | paymentError
  | createError
  | created (rentalId : String) (totalFee : Int) (eta : Int) (paymentUrl : String)
deriving Repr, DecidableEq

/-- The pending-rental scan shared by both `Checkout` drafts
(`GetPendingRentalByCustomerAndCollectible`, and the
`GetRentalsByCustomerAndCollectible` loop filtering on
`PaymentStatus == Pending`). -/
def findPendingRental (rentals : List Rental) (email collectibleId : String) : Option Rental :=
  rentals.find? (fun r =>
    r.customerEmail == email && r.collectibleId == collectibleId &&
      decide (r.paymentStatus = PaymentStatus.pending))

/-- `Repository.CreateRental`: fail on duplicate id, else insert. -/
def createRental (rentals : List Rental) (r : Rental) : Option (List Rental) :=
  if rentals.any (fun r0 => r0.id == r.id) then none else some (rentals ++ [r])

/-- The legacy single-item `Checkout` of `handlers/rentals.go` (the older
draft): collectible lookup, then `Allocate` (the draft's two-argument,
no-sweep allocator), then pricing, and only then the idempotency scan —
when a pending rental exists its data is returned but the unit just
reserved stays reserved.  `payment` is the gateway's
`CreateCheckoutSession` outcome `(paymentID, paymentURL)`. -/
def CheckoutLegacy (rentals : List Rental) (collectibles : List Collectible)
    (am : AllocationManager) (email collectibleId storeId : String) (duration : Int)
    (now : Nat) (newRentalId : String) (payment : Option (String × String)) :
    AllocationManager × List Rental × CheckoutSingleResult :=
  match collectibles.find? (fun c => c.id == collectibleId) with
  | none => (am, rentals, CheckoutSingleResult.notFound)
  | some coll =>
    match am.AllocateLegacy collectibleId storeId now with
    | (am1, none) => (am1, rentals, CheckoutSingleResult.noCapacity)
    | (am1, some (_, eta)) =>
      let fee := CalculateRentalFee coll.size duration
      match findPendingRental rentals email collectibleId with
      | some pending =>
        (am1, rentals,
          CheckoutSingleResult.reusedPending pending.id pending.totalFee pending.eta
            pending.paymentUrl)
      | none =>
        match payment with
        | none => (am1, rentals, CheckoutSingleResult.paymentError)
        | some (pid, purl) =>
          let rental : Rental :=
            { id := newRentalId, collectibleId := collectibleId, storeId := storeId,
              warehouseId := "", customerEmail := email, duration := duration,
              dailyRate := fee.1, totalFee := fee.2.1,
              paymentStatus := PaymentStatus.pending, paymentId := pid,
              paymentUrl := purl, eta := eta }
          match createRental rentals rental with
          | none => (am1, rentals, CheckoutSingleResult.createError)
          | some rentals1 =>
            (am1, rentals1, CheckoutSingleResult.created newRentalId fee.2.1 eta purl)

/-- The newer draft's single-item `Checkout` (the handler shipped with the
cart flow): the idempotency lookup runs FIRST; on a hit the existing
rental's data is returned and nothing else happens.  Otherwise the saga
proceeds with the reservation-aware `Allocate`. -/
def CheckoutV2 (rentals : List Rental) (collectibles : List Collectible)
    (am : AllocationManager) (email collectibleId storeId : String) (duration : Int)
    (now : Nat) (newRentalId : String) (payment : Option (String × String)) :
    AllocationManager × List Rental × CheckoutSingleResult :=
  match findPendingRental rentals email collectibleId with
  | some existing =>
    (am, rentals,
      CheckoutSingleResult.reusedPending existing.id existing.totalFee existing.eta
        existing.paymentUrl)
  | none =>
    match collectibles.find? (fun c => c.id == collectibleId) with
    | none => (am, rentals, CheckoutSingleResult.notFound)
    | some coll =>
      match am.Allocate collectibleId storeId newRentalId now with
      | (am1, none) => (am1, rentals, CheckoutSingleResult.noCapacity)
      | (am1, some (u, eta)) =>
        let fee := CalculateRentalFee coll.size duration
        match payment with
        | none => (am1, rentals, CheckoutSingleResult.paymentError)
        | some (pid, purl) =>
          let rental : Rental :=
            { id := newRentalId, collectibleId := collectibleId, storeId := storeId,
              warehouseId := u.warehouseId, customerEmail := email, duration := duration,
              dailyRate := fee.1, totalFee := fee.2.1,
              paymentStatus := PaymentStatus.pending, paymentId := pid,
              paymentUrl := purl, eta := eta }
          match createRental rentals rental with
          | none => (am1, rentals, CheckoutSingleResult.createError)
          | some rentals1 =>
            (am1, rentals1, CheckoutSingleResult.created newRentalId fee.2.1 eta purl)

/-- The repository state for the C4 failing input: a pending rental of
customer `e` for `c1`, and one available unit of `c1`. -/
def rentalsC4 : List Rental :=
  [{ id := "r-old", collectibleId := "c1", storeId := "s1", warehouseId := "w1",
     customerEmail := "e", duration := 7, dailyRate := 5000, totalFee := 35000,
     paymentStatus := PaymentStatus.pending, paymentId := "pay-old",
     paymentUrl := "http://pay/old", eta := 2 }]

/-- One available unit of `c1` in warehouse `w1`, distance 2 from `s1`. -/
def amC4 : AllocationManager :=
  { inventory :=
      [{ id := "u1", collectibleId := "c1", warehouseId := "w1",
         isAvailable := true, reservedAt := none, reservationId := "" }],
    warehouses := [{ id := "w1", distances := [("s1", 2)] }] }

/-- The C4 collectible catalog. -/
def collsC4 : List Collectible := [{ id := "c1", name := "Toy", size := "M" }]

/-- **C4 (failing input)** — with a pending rental already on file, the
cited legacy `Checkout` returns the stored rental's
`(rentalId, totalFee, paymentUrl)` unchanged, but because its idempotency
lookup runs only after `Allocate`, one unit of `c1` has already been
reserved and is leaked (available stock drops from 1 to 0).  The newer
draft of the same handler, which performs the lookup first, returns the
same data and leaves the inventory untouched. -/
theorem checkoutLegacy_idempotency_leak :
    (CheckoutLegacy rentalsC4 collsC4 amC4 "e" "c1" "s1" 7 0 "r-new"
        (some ("pay-new", "http://pay/new"))).2.2 =
      CheckoutSingleResult.reusedPending "r-old" 35000 2 "http://pay/old" ∧
    amC4.GetTotalStock "c1" = 1 ∧
    (CheckoutLegacy rentalsC4 collsC4 amC4 "e" "c1" "s1" 7 0 "r-new"
        (some ("pay-new", "http://pay/new"))).1.GetTotalStock "c1" = 0 ∧
    (CheckoutV2 rentalsC4 collsC4 amC4 "e" "c1" "s1" 7 0 "r-new"
        (some ("pay-new", "http://pay/new"))).2.2 =
      CheckoutSingleResult.reusedPending "r-old" 35000 2 "http://pay/old" ∧
    (CheckoutV2 rentalsC4 collsC4 amC4 "e" "c1" "s1" 7 0 "r-new"
        (some ("pay-new", "http://pay/new"))).1 = amC4 := by decide

/-- A cart line item (`models.CartItem`). -/
structure CartItem where
  collectibleId : String
  storeId : String
  rentalDays : Int
  quantity : Int
deriving Repr, DecidableEq

/-- An order line item (`models.OrderItem`), restricted to the fields the
checkout saga writes. -/
structure OrderItem where
  collectibleId : String
  collectibleName : String
  unitId : String
  warehouseId : String
  rentalDays : Int
  etaDays : Int
  price : Int
deriving Repr, DecidableEq

/-- Outcome of `CheckoutFromCart` (by HTTP branch). -/
inductive CheckoutCartResult where
  | noActiveCart
  | emptyCart
  | allocationFailed (failed : List String)
  | paymentFailed
  | orderCreateFailed
  | success (total : Int) (paymentUrl : String)
deriving Repr, DecidableEq

/-- Step 5 of `CheckoutFromCart`: for each cart item load the collectible
and allocate a unit, collecting order items, the running total and the
failed collectible ids, in declared order; failures do not short-circuit. -/
def allocateItems (collectibles : List Collectible) (orderId : String) (now : Nat) :
    AllocationManager → List CartItem →
      AllocationManager × List OrderItem × Int × List String
  | am, [] => (am, [], 0, [])
  | am, item :: rest =>
    match collectibles.find? (fun c => c.id == item.collectibleId) with
    | none =>
      let r := allocateItems collectibles orderId now am rest
      (r.1, r.2.1, r.2.2.1, item.collectibleId :: r.2.2.2)
    | some coll =>
      match am.Allocate item.collectibleId item.storeId orderId now with
      | (am1, none) =>
        let r := allocateItems collectibles orderId now am1 rest
        (r.1, r.2.1, r.2.2.1, item.collectibleId :: r.2.2.2)
      | (am1, some (u, eta)) =>
        let r := allocateItems collectibles orderId now am1 rest
        (r.1,
          { collectibleId := item.collectibleId, collectibleName := coll.name,
            unitId := u.id, warehouseId := u.warehouseId,
            rentalDays := item.rentalDays, etaDays := eta,
            price := (CalculateRentalFee coll.size item.rentalDays).2.1 } :: r.2.1,
          (CalculateRentalFee coll.size item.rentalDays).2.1 + r.2.2.1,
          r.2.2.2)

/-- The compensation loop of `CheckoutFromCart` (steps 6–8 error paths):
`ReleaseUnit(item.CollectibleID, item.WarehouseID)` for every collected
order item, in order. -/
def releaseAll : AllocationManager → List OrderItem → AllocationManager
  | am, [] => am
  | am, oi :: rest => releaseAll (am.ReleaseUnit oi.collectibleId oi.warehouseId).1 rest

/-- `RentalsHandler.CheckoutFromCart`: load the active cart (`none` =
no active cart), reject an empty cart, allocate every item, then — on any
failed allocation, on payment-session failure, or on order-persistence
failure — release all allocated units and return the error; otherwise
return the success payload.  `paymentOk`/`orderCreateOk` are the outcomes
of the external `CreateCheckoutSession` and `Repository.CreateOrder`
calls; the cart-status write of step 9 is outside the unit inventory. -/
def CheckoutFromCart (am : AllocationManager) (cart : Option (List CartItem))
    (collectibles : List Collectible) (orderId : String) (now : Nat)
    (paymentOk orderCreateOk : Bool) (paymentUrl : String) :
    AllocationManager × CheckoutCartResult :=
  match cart with
  | none => (am, CheckoutCartResult.noActiveCart)
  | some items =>
    if items.isEmpty then (am, CheckoutCartResult.emptyCart)
    else
      let r := allocateItems collectibles orderId now am items
      if r.2.2.2.isEmpty then
        if paymentOk then
          if orderCreateOk then (r.1, CheckoutCartResult.success r.2.2.1 paymentUrl)
          else (releaseAll r.1 r.2.1, CheckoutCartResult.orderCreateFailed)
        else (releaseAll r.1 r.2.1, CheckoutCartResult.paymentFailed)
      else (releaseAll r.1 r.2.1, CheckoutCartResult.allocationFailed r.2.2.2)

/-- The `(CollectibleID, WarehouseID)` pair of a unit — the key
`ReleaseUnit` works with. -/
def pairOf (u : CollectibleUnit) : String × String := (u.collectibleId, u.warehouseId)

/-- The ids of the `Available` units, in inventory order. -/
def availableIds (inv : List CollectibleUnit) : List String :=
  (inv.filter (fun u => u.isAvailable)).map (fun u => u.id)

/-- The release keys of a list of order items. -/
def pairsOf (ois : List OrderItem) : List (String × String) :=
  ois.map (fun oi => (oi.collectibleId, oi.warehouseId))

/-- `true` on every error outcome of `CheckoutFromCart`. -/
def isErrorResult : CheckoutCartResult → Bool
  | CheckoutCartResult.success _ _ => false
  | _ => true

/-- Inventory for the C1 counterexample: `u0` (listed first) holds a live
reservation of another order, `u1` is available; both are units of `c1`
in warehouse `w1`. -/
def amC1 : AllocationManager :=
  { inventory :=
      [{ id := "u0", collectibleId := "c1", warehouseId := "w1",
         isAvailable := false, reservedAt := some 0, reservationId := "r0" },
       { id := "u1", collectibleId := "c1", warehouseId := "w1",
         isAvailable := true, reservedAt := none, reservationId := "" }],
    warehouses := [{ id := "w1", distances := [("s1", 1)] }] }

/-- The C1 counterexample cart: `c1` (allocatable) then `zz` (unknown). -/
def cartC1 : List CartItem :=
  [{ collectibleId := "c1", storeId := "s1", rentalDays := 3, quantity := 1 },
   { collectibleId := "zz", storeId := "s1", rentalDays := 3, quantity := 1 }]

/-- The C1 counterexample catalog: only `c1` exists. -/
def collsC1 : List Collectible := [{ id := "c1", name := "Toy", size := "M" }]

/-- **C1 counterexample** — `CheckoutFromCart` allocates `u1` for the
first item, fails on the second, and compensates with
`ReleaseUnit("c1", "w1")` — which releases `u0`, the FIRST unavailable
unit with that key, held by another order.  The call errors, yet the set
of `Available` units changes from `{u1}` to `{u0}`. -/
theorem checkoutFromCart_compensation_cex :
    (CheckoutFromCart amC1 (some cartC1) collsC1 "o1" 0 true true "url").2 =
      CheckoutCartResult.allocationFailed ["zz"] ∧
    availableIds amC1.inventory = ["u1"] ∧
    availableIds
        (CheckoutFromCart amC1 (some cartC1) collsC1 "o1" 0 true true "url").1.inventory =
      ["u0"] := by decide

/-! Compensation analysis for `CheckoutFromCart`. -/

lemma candidateDistance_props (ws : List WarehouseNode) (cid sid : String)
    (u : CollectibleUnit) (d : Int) (h : candidateDistance ws cid sid u = some d) :
    u.collectibleId = cid ∧ u.isAvailable = true := by
  by_cases hc : u.collectibleId = cid ∧ u.isAvailable = true
  · exact hc
  · rw [candidateDistance, if_neg hc] at h
    cases h

lemma allocate_success_char (am : AllocationManager) (cid sid rid : String) (now : Nat)
    (hne : noExpired now am.inventory) (am1 : AllocationManager) (u : CollectibleUnit)
    (eta : Int) (h : am.Allocate cid sid rid now = (am1, some (u, eta))) :
    ∃ i u0, am.inventory.get? i = some u0 ∧
      u0.collectibleId = cid ∧ u0.isAvailable = true ∧
      u = reserveUnit now rid u0 ∧
      am1 = { am with
        inventory := updateAt (fun _ => reserveUnit now rid u0) i am.inventory } := by
  have hsw := sweepInventory_id now am.inventory hne
  cases hres : selectBest (candidateDistance am.warehouses cid sid)
      (sweepInventory now am.inventory) 0 maxInt32 none with
  | none =>
    rw [AllocationManager.Allocate] at h
    rw [hres] at h
    simp at h
  | some p =>
    obtain ⟨i, u0, d⟩ := p
    rw [AllocationManager.Allocate] at h
    rw [hres] at h
    simp only [Prod.mk.injEq, Option.some.injEq] at h
    obtain ⟨ham1, hu, heta⟩ := h
    have hres2 : selectBest (candidateDistance am.warehouses cid sid)
        am.inventory 0 maxInt32 none = some (i, u0, d) := by
      rw [← hsw]; exact hres
    rcases selectBest_spec _ am.inventory 0 maxInt32 none (by intro p hp; cases hp)
        i u0 d hres2 with ⟨hb, _⟩ | ⟨j, hi, hjget, hfu, _, _, _⟩
    · cases hb
    · have hij : i = j := by omega
      subst hij
      obtain ⟨hcid, hav⟩ := candidateDistance_props _ _ _ _ _ hfu
      exact ⟨i, u0, hjget, hcid, hav, hu.symm, by rw [← ham1, hsw]⟩

lemma allocate_failure_char (am : AllocationManager) (cid sid rid : String) (now : Nat)
    (hne : noExpired now am.inventory) (am1 : AllocationManager)
    (h : am.Allocate cid sid rid now = (am1, none)) : am1 = am := by
  have hsw := sweepInventory_id now am.inventory hne
  cases hres : selectBest (candidateDistance am.warehouses cid sid)
      (sweepInventory now am.inventory) 0 maxInt32 none with
  | none =>
    rw [AllocationManager.Allocate] at h
    rw [hres] at h
    simp only [Prod.mk.injEq] at h
    rw [← h.1, hsw]
  | some p =>
    obtain ⟨i, u0, d⟩ := p
    rw [AllocationManager.Allocate] at h
    rw [hres] at h
    simp at h

lemma noExpired_updateAt_reserve (now : Nat) (rid : String) (u0 : CollectibleUnit)
    (i : Nat) (inv : List CollectibleUnit) (h : noExpired now inv) :
    noExpired now (updateAt (fun _ => reserveUnit now rid u0) i inv) := by
  intro u hu
  obtain ⟨k, hk⟩ := List.mem_iff_get?.mp hu
  rw [updateAt_get?] at hk
  by_cases hki : k = i
  · rw [if_pos hki] at hk
    cases hg : inv.get? i with
    | none => rw [hg] at hk; cases hk
    | some v =>
      rw [hg] at hk
      injection hk with hk
      subst hk
      simp only [reservationExpired, reserveUnit, reservationTimeout]
      simp only [Bool.not_false, Bool.true_and]
      rw [decide_eq_false]
      omega
  · rw [if_neg hki] at hk
    exact h u (List.get?_mem hk)

lemma pairMap_eq_of_sig (inv inv' : List CollectibleUnit)
    (h : inv'.map unitSig = inv.map unitSig) : inv'.map pairOf = inv.map pairOf := by
  have h2 : ∀ l : List CollectibleUnit,
      l.map pairOf = (l.map unitSig).map (fun s => s.2) := by
    intro l
    rw [List.map_map]
    rfl
  rw [h2, h2, h]

/-- Pointwise relation between an inventory and its state after the saga
has reserved exactly the units whose keys are in `ps`. -/
def ReservedPt (ps : List (String × String)) (inv inv' : List CollectibleUnit) : Prop :=
  inv'.length = inv.length ∧
  ∀ i u u', inv.get? i = some u → inv'.get? i = some u' →
    unitSig u' = unitSig u ∧
    (pairOf u ∈ ps → u.isAvailable = true ∧ u'.isAvailable = false) ∧
    (pairOf u ∉ ps → u'.isAvailable = u.isAvailable)

lemma availableIds_eq_of_pt_nil :
    ∀ inv inv' : List CollectibleUnit, ReservedPt [] inv inv' →
      availableIds inv' = availableIds inv := by
  intro inv
  induction inv with
  | nil =>
    intro inv' h
    have := h.1
    cases inv' with
    | nil => rfl
    | cons v l => simp at this
  | cons u rest ih =>
    intro inv' h
    cases inv' with
    | nil => exact absurd h.1 (by simp)
    | cons u' rest' =>
      obtain ⟨hlen, hpt⟩ := h
      obtain ⟨hsig, _, havail⟩ := hpt 0 u u' rfl rfl
      have hrest : ReservedPt [] rest rest' := by
        refine ⟨by simpa using hlen, ?_⟩
        intro i v v' hv hv'
        exact hpt (i + 1) v v' (by simpa using hv) (by simpa using hv')
      have hid : u'.id = u.id := congrArg (fun s => s.1) hsig
      have hav : u'.isAvailable = u.isAvailable := havail (by simp)
      cases hu : u.isAvailable with
      | false =>
        simp only [availableIds, List.filter]
        rw [hav, hu]
        exact ih rest' hrest
      | true =>
        simp only [availableIds, List.filter]
        rw [hav, hu]
        simp only [List.map]
        rw [hid]
        have := ih rest' hrest
        simp only [availableIds] at this
        rw [this]

lemma reservedPt_nil_refl (inv : List CollectibleUnit) : ReservedPt [] inv inv := by
  refine ⟨rfl, ?_⟩
  intro i u u' hu hu'
  rw [hu] at hu'
  injection hu' with h
  subst h
  exact ⟨rfl, fun hmem => absurd hmem (List.not_mem_nil _), fun _ => rfl⟩

lemma allocateItems_spec (colls : List Collectible) (oid : String) (now : Nat) :
    ∀ (items : List CartItem) (am : AllocationManager),
      noExpired now am.inventory → (am.inventory.map pairOf).Nodup →
      (ReservedPt (pairsOf (allocateItems colls oid now am items).2.1) am.inventory
          (allocateItems colls oid now am items).1.inventory ∧
        (pairsOf (allocateItems colls oid now am items).2.1).Nodup ∧
        (∀ p ∈ pairsOf (allocateItems colls oid now am items).2.1,
          p ∈ am.inventory.map pairOf) ∧
        noExpired now (allocateItems colls oid now am items).1.inventory ∧
        (allocateItems colls oid now am items).1.inventory.map unitSig =
          am.inventory.map unitSig) := by
  intro items
  induction items with
  | nil =>
    intro am hne hnd
    constructor
    · simpa [allocateItems, pairsOf] using reservedPt_nil_refl am.inventory
    constructor
    · simp [allocateItems, pairsOf]
    constructor
    · simp [allocateItems, pairsOf]
    constructor
    · simpa [allocateItems] using hne
    · simp [allocateItems]
  | cons item rest ih =>
    intro am hne hnd
    cases hfind : colls.find? (fun c => c.id == item.collectibleId) with
    | none =>
      simp only [allocateItems, hfind]
      exact ih am hne hnd
    | some coll =>
      cases halloc : am.Allocate item.collectibleId item.storeId oid now with
      | mk am1 res =>
        cases res with
        | none =>
          have ham1 : am1 = am :=
            allocate_failure_char am item.collectibleId item.storeId oid now hne am1 halloc
          subst ham1
          simp only [allocateItems, hfind, halloc]
          exact ih am1 hne hnd
        | some p =>
          obtain ⟨u, eta⟩ := p
          obtain ⟨i, u0, hg, hcid, hav, hu, ham1⟩ :=
            allocate_success_char am item.collectibleId item.storeId oid now hne am1 u eta halloc
          have ham1inv : am1.inventory =
              updateAt (fun _ => reserveUnit now oid u0) i am.inventory := by
            rw [ham1]
          have hsig1 : am1.inventory.map unitSig = am.inventory.map unitSig := by
            rw [ham1inv]
            exact updateAt_sig_of_get _ i _ u0 hg rfl
          have hlen1 : am1.inventory.length = am.inventory.length := by
            have := congrArg List.length hsig1
            simpa using this
          have hne1 : noExpired now am1.inventory := by
            rw [ham1inv]
            exact noExpired_updateAt_reserve now oid u0 i am.inventory hne
          have hnd1 : (am1.inventory.map pairOf).Nodup := by
            rw [pairMap_eq_of_sig _ _ hsig1]
            exact hnd
          obtain ⟨hPT, hNod, hSub, hNE, hSIG⟩ := ih am1 hne1 hnd1
          have hgi1 : am1.inventory.get? i = some (reserveUnit now oid u0) := by
            rw [ham1inv, updateAt_get?, if_pos rfl, hg]
            rfl
          have hpu : (item.collectibleId, u.warehouseId) = pairOf u0 := by
            rw [hu]
            simp [pairOf, reserveUnit, hcid]
          -- the final state still has a unit at index i
          have hilen : i < (allocateItems colls oid now am1 rest).1.inventory.length := by
            rw [hPT.1, hlen1]
            exact (List.get?_eq_some.mp hg).1
          have hpu_not : pairOf u0 ∉ pairsOf (allocateItems colls oid now am1 rest).2.1 := by
            intro hmem
            cases hw : (allocateItems colls oid now am1 rest).1.inventory.get? i with
            | none =>
              rw [List.get?_eq_none] at hw
              omega
            | some w =>
              obtain ⟨_, hin, _⟩ := hPT.2 i (reserveUnit now oid u0) w hgi1 hw
              have : (reserveUnit now oid u0).isAvailable = true :=
                (hin (by simpa [pairOf, reserveUnit] using hmem)).1
              simp [reserveUnit] at this
          simp only [allocateItems, hfind, halloc, pairsOf, List.map_cons]
          rw [hpu]
          refine ⟨?_, ?_, ?_, hNE, hSIG.trans hsig1⟩
          · refine ⟨hPT.1.trans hlen1, ?_⟩
            intro j v v' hv hv'
            by_cases hji : j = i
            · subst hji
              rw [hg] at hv
              injection hv with hv
              subst hv
              obtain ⟨hsig', hin', hout'⟩ := hPT.2 j (reserveUnit now oid u0) v' hgi1 hv'
              refine ⟨hsig'.trans rfl, ?_, ?_⟩
              · intro _
                refine ⟨hav, ?_⟩
                have := hout' (by simpa [pairOf, reserveUnit] using hpu_not)
                rw [this]
                simp [reserveUnit]
              · intro hno
                exact absurd (List.mem_cons_self _ _) hno
            · have hv1 : am1.inventory.get? j = some v := by
                rw [ham1inv, updateAt_get?, if_neg hji]
                exact hv
              obtain ⟨hsig', hin', hout'⟩ := hPT.2 j v v' hv1 hv'
              refine ⟨hsig', ?_, ?_⟩
              · intro hmem
                rcases List.mem_cons.mp hmem with hhead | htail
                · exfalso
                  apply hji
                  have hmapj : (am.inventory.map pairOf).get? j = some (pairOf u0) := by
                    rw [List.get?_map, hv]
                    simp [hhead]
                  have hmapi : (am.inventory.map pairOf).get? i = some (pairOf u0) := by
                    rw [List.get?_map, hg]
                    rfl
                  have hjlen : j < (am.inventory.map pairOf).length := by
                    rw [List.length_map]
                    exact (List.get?_eq_some.mp hv).1
                  exact List.get?_inj hjlen hnd (hmapj.trans hmapi.symm)
                · exact hin' htail
              · intro hno
                apply hout'
                intro hps'
                exact hno (List.mem_cons_of_mem _ hps')
          · rw [List.nodup_cons]
            exact ⟨hpu_not, hNod⟩
          · intro q hq
            rcases List.mem_cons.mp hq with hhead | htail
            · subst hhead
              exact List.mem_map.mpr ⟨u0, List.get?_mem hg, rfl⟩
            · have := hSub q htail
              rw [pairMap_eq_of_sig _ _ hsig1] at this
              exact this

lemma updateAt_length (f : CollectibleUnit → CollectibleUnit) :
    ∀ (n : Nat) (l : List CollectibleUnit), (updateAt f n l).length = l.length := by
  intro n l
  induction l generalizing n with
  | nil => simp [updateAt]
  | cons v rest ih =>
    cases n with
    | zero => simp [updateAt]
    | succ n2 => simpa [updateAt] using ih n2

lemma pairOf_eq_of_sig (u v : CollectibleUnit) (h : unitSig u = unitSig v) :
    pairOf u = pairOf v := by
  have h1 : pairOf u = (unitSig u).2 := rfl
  rw [h1, h]
  rfl

lemma releaseAll_restores :
    ∀ (ois : List OrderItem) (am2 : AllocationManager) (inv : List CollectibleUnit),
      (inv.map pairOf).Nodup →
      (pairsOf ois).Nodup →
      (∀ p ∈ pairsOf ois, p ∈ inv.map pairOf) →
      ReservedPt (pairsOf ois) inv am2.inventory →
      availableIds (releaseAll am2 ois).inventory = availableIds inv := by
  intro ois
  induction ois with
  | nil =>
    intro am2 inv _ _ _ hPT
    simpa [releaseAll] using
      availableIds_eq_of_pt_nil inv am2.inventory (by simpa [pairsOf] using hPT)
  | cons oi rest ih =>
    intro am2 inv hnd hnodp hsub hPT
    have hpmem : (oi.collectibleId, oi.warehouseId) ∈ inv.map pairOf :=
      hsub _ (by simp [pairsOf])
    obtain ⟨u0, hu0mem, hu0p⟩ := List.mem_map.mp hpmem
    obtain ⟨i, hg⟩ := List.mem_iff_get?.mp hu0mem
    have hilen : i < am2.inventory.length := by
      rw [hPT.1]
      exact (List.get?_eq_some.mp hg).1
    obtain ⟨u2, hg2⟩ : ∃ u2, am2.inventory.get? i = some u2 := by
      cases hw : am2.inventory.get? i with
      | none => rw [List.get?_eq_none] at hw; omega
      | some w => exact ⟨w, rfl⟩
    obtain ⟨hsig2, hin2, _⟩ := hPT.2 i u0 u2 hg hg2
    have hu0head : pairOf u0 ∈ pairsOf (oi :: rest) := by
      rw [hu0p]
      simp [pairsOf]
    have hu0av : u0.isAvailable = true := (hin2 hu0head).1
    have hu2av : u2.isAvailable = false := (hin2 hu0head).2
    have hu2p : pairOf u2 = pairOf u0 := pairOf_eq_of_sig u2 u0 hsig2
    have hcond : u2.collectibleId = oi.collectibleId ∧ u2.warehouseId = oi.warehouseId ∧
        u2.isAvailable = false := by
      have h1 : (u2.collectibleId, u2.warehouseId) = (oi.collectibleId, oi.warehouseId) := by
        have : pairOf u2 = (oi.collectibleId, oi.warehouseId) := hu2p.trans hu0p
        exact this
      exact ⟨congrArg Prod.fst h1, congrArg Prod.snd h1, hu2av⟩
    cases hrel : releaseFirst oi.collectibleId oi.warehouseId am2.inventory with
    | none =>
      exfalso
      exact releaseFirst_none_no_match _ _ _ hrel u2 (List.get?_mem hg2) hcond
    | some inv2 =>
      obtain ⟨i0, w, hg0, hw, _, hinv2⟩ :=
        releaseFirst_some_spec oi.collectibleId oi.warehouseId am2.inventory inv2 hrel
      have hi0 : i0 = i := by
        have hi0len : i0 < am2.inventory.length := (List.get?_eq_some.mp hg0).1
        obtain ⟨v0, hgv0⟩ : ∃ v0, inv.get? i0 = some v0 := by
          cases hx : inv.get? i0 with
          | none =>
            rw [List.get?_eq_none] at hx
            rw [hPT.1] at hi0len
            omega
          | some y => exact ⟨y, rfl⟩
        obtain ⟨hsig0, _, _⟩ := hPT.2 i0 v0 w hgv0 hg0
        have hpair0 : pairOf v0 = (oi.collectibleId, oi.warehouseId) := by
          have h : pairOf w = pairOf v0 := pairOf_eq_of_sig w v0 hsig0
          rw [← h]
          show (w.collectibleId, w.warehouseId) = _
          rw [hw.1, hw.2.1]
        have hmap0 : (inv.map pairOf).get? i0 = some (pairOf u0) := by
          rw [List.get?_map, hgv0]
          simp [hpair0, hu0p]
        have hmapi : (inv.map pairOf).get? i = some (pairOf u0) := by
          rw [List.get?_map, hg]
          rfl
        have hi0len2 : i0 < (inv.map pairOf).length := by
          rw [List.length_map]
          rw [hPT.1] at hi0len
          omega
        exact List.get?_inj hi0len2 hnd (hmap0.trans hmapi.symm)
      subst hi0
      have hstep : releaseAll am2 (oi :: rest) =
          releaseAll (am2.ReleaseUnit oi.collectibleId oi.warehouseId).1 rest := rfl
      have hrelinv : (am2.ReleaseUnit oi.collectibleId oi.warehouseId).1.inventory =
          updateAt
            (fun v =>
              { v with isAvailable := true, reservedAt := none, reservationId := "" })
            i0 am2.inventory := by
        simp only [AllocationManager.ReleaseUnit, hrel]
        exact hinv2
      rw [hstep]
      have hcons := List.nodup_cons.mp
        (show ((oi.collectibleId, oi.warehouseId) :: pairsOf rest).Nodup from hnodp)
      apply ih _ inv hnd hcons.2 (fun p hp => hsub p (List.mem_cons_of_mem _ hp))
      -- remaining: ReservedPt (pairsOf rest) inv (released inventory)
      refine ⟨?_, ?_⟩
      · rw [hrelinv, updateAt_length]
        exact hPT.1
      · intro j v v' hv hv'
        rw [hrelinv, updateAt_get?] at hv'
        by_cases hji : j = i0
        · subst hji
          rw [if_pos rfl, hg2] at hv'
          injection hv' with hv'
          rw [hg] at hv
          injection hv with hv
          subst hv
          subst hv'
          refine ⟨?_, ?_, ?_⟩
          · exact hsig2
          · intro hmem
            exfalso
            apply hcons.1
            rw [← hu0p]
            exact hmem
          · intro _
            simp [hu0av]
        · rw [if_neg hji] at hv'
          obtain ⟨hsig', hin', hout'⟩ := hPT.2 j v v' hv hv'
          refine ⟨hsig', ?_, ?_⟩
          · intro hmem
            exact hin' (List.mem_cons_of_mem _ hmem)
          · intro hno
            apply hout'
            intro hmemc
            rcases List.mem_cons.mp hmemc with hhead | htail
            · apply hji
              have hmapj : (inv.map pairOf).get? j = some (pairOf u0) := by
                rw [List.get?_map, hv]
                simp [hhead, hu0p]
              have hmapi : (inv.map pairOf).get? i0 = some (pairOf u0) := by
                rw [List.get?_map, hg]
                rfl
              have hjlen : j < (inv.map pairOf).length := by
                rw [List.length_map]
                exact (List.get?_eq_some.mp hv).1
              exact List.get?_inj hjlen hnd (hmapj.trans hmapi.symm)
            · exact absurd htail hno

/-- **C1 (amended)** — compensation completeness holds under the two
conditions the deployed system establishes: no reservation in the
inventory is expired at call time (so the in-line sweeps free nothing),
and no two units share a `(CollectibleID, WarehouseID)` pair (as in the
startup bridge, which creates one unit per warehouse entry) — so
`ReleaseUnit` by pair frees exactly the allocated unit.  Then after any
error return of `CheckoutFromCart` the set of `Available` units is exactly
the set that was `Available` before the call.  Without these conditions
the property fails (see the counterexample). -/
theorem checkoutFromCart_compensation (am : AllocationManager)
    (cart : Option (List CartItem)) (colls : List Collectible) (orderId : String)
    (now : Nat) (paymentOk orderCreateOk : Bool) (url : String)
    (hne : noExpired now am.inventory)
    (hnd : (am.inventory.map pairOf).Nodup)
    (herr : isErrorResult
        (CheckoutFromCart am cart colls orderId now paymentOk orderCreateOk url).2 = true) :
    availableIds
        (CheckoutFromCart am cart colls orderId now paymentOk orderCreateOk url).1.inventory =
      availableIds am.inventory := by
  cases cart with
  | none => rfl
  | some items =>
    cases hempty : items.isEmpty with
    | true => simp only [CheckoutFromCart, hempty, if_true]
    | false =>
      obtain ⟨hPT, hNod, hSub, _, _⟩ := allocateItems_spec colls orderId now items am hne hnd
      have hcomp := releaseAll_restores (allocateItems colls orderId now am items).2.1
        (allocateItems colls orderId now am items).1 am.inventory hnd hNod hSub hPT
      cases hfail : (allocateItems colls orderId now am items).2.2.2.isEmpty with
      | false =>
        simp only [CheckoutFromCart, hempty, hfail, Bool.false_eq_true, if_false]
        exact hcomp
      | true =>
        cases hpay : paymentOk with
        | false =>
          simp only [CheckoutFromCart, hempty, hfail, Bool.false_eq_true, if_false,
            if_true]
          exact hcomp
        | true =>
          cases hord : orderCreateOk with
          | false =>
            simp only [CheckoutFromCart, hempty, hfail, Bool.false_eq_true, if_false,
              if_true]
            exact hcomp
          | true =>
            exfalso
            rw [CheckoutFromCart] at herr
            simp only [hempty, hfail, hpay, hord, Bool.false_eq_true, if_false,
              if_true] at herr
            simp [isErrorResult] at herr

/-- Witness for `checkoutFromCart_compensation`: one available unit of
`c1`, a two-item cart whose second item is unknown; the checkout errors
with a partial allocation and the available set is restored exactly. -/
theorem checkoutFromCart_compensation_witness :
    noExpired 0 amC4.inventory ∧
    (amC4.inventory.map pairOf).Nodup ∧
    isErrorResult
        (CheckoutFromCart amC4 (some cartC1) collsC1 "o1" 0 true true "url").2 = true ∧
    availableIds
        (CheckoutFromCart amC4 (some cartC1) collsC1 "o1" 0 true true "url").1.inventory =
      availableIds amC4.inventory :=
  ⟨by decide, by decide, by decide,
    checkoutFromCart_compensation amC4 (some cartC1) collsC1 "o1" 0 true true "url"
      (by decide) (by decide) (by decide)⟩
